import Mathlib

/-!
Verification development for the instacut backend orchestrator.

The definitions below are a shallow embedding of the Python sources under
`src/backend/`.  Numeric model profiles (costs, speeds, qualities) written as
float literals in the source are embedded as exact rationals; the scoring
comparisons involved are far from any rounding boundary, so the order of
scores is the same.  Python dictionaries that preserve insertion order are
embedded as association lists, and exception control flow as `Except`.
-/

/-- A Python exception value, distinguishing the exception classes the
orchestrator code dispatches on (`asyncio.TimeoutError`, `ImportError`,
plain `Exception`); `str` is Python's `str(e)`. -/
inductive PyExc where
  | timeoutError (msg : String)
  | importError (msg : String)
  | exc (msg : String)
deriving Repr, DecidableEq

/-- Python `str(e)` on an exception value. -/
def PyExc.str : PyExc → String
  | .timeoutError m => m
  | .importError m => m
  | .exc m => m

/-- Python's substring test `needle in hay` on strings. -/
def strContains (hay needle : String) : Bool :=
  hay.data.tails.any (fun t => needle.data.isPrefixOf t)

/-- Executable check that every pair of consecutive list elements satisfies
`R` (used to evaluate chain properties of concrete traces). -/
def adjOK {α : Type} (R : α → α → Bool) : List α → Bool
  | [] => true
  | [_] => true
  | a :: b :: l => R a b && adjOK R (b :: l)

/-- The dictionary returned by the orchestrators' `process_image` coroutines,
restricted to the keys the claims mention.  `none` means the key is absent
from the returned dict. -/
structure ProcessResult where
  status : String
  output_path : Option String := none
  model_used : Option String := none
  error : Option String := none
  processing_time : Option ℚ := none
  cost : Option ℚ := none
  model_attempted : Option String := none
  operation : Option String := none
deriving Repr, DecidableEq

namespace AiServices

/-- One entry of `AIServiceOrchestrator.available_models`
(`src/backend/ai_services.py`): a model's cost/speed/quality profile and
availability flag. -/
structure ModelConfig where
  cost : ℚ
  speed : ℚ
  quality : ℚ
  available : Bool
deriving Repr, DecidableEq

/-- The score computed inside `select_best_model`:
`(config["quality"] * 100) - (config["cost"] * 50) - (config["speed"] * 2)`. -/
def score (c : ModelConfig) : ℚ :=
  c.quality * 100 - c.cost * 50 - c.speed * 2

/-- The `"background_removal"` entry of `available_models`. -/
def background_removal_models : List (String × ModelConfig) :=
  [ ("rembg", ⟨0.02, 2.5, 0.9, true⟩),
    ("remove_bg_api", ⟨0.15, 3.5, 0.85, false⟩) ]

/-- The `"upscaling"` entry of `available_models`. -/
def upscaling_models : List (String × ModelConfig) :=
  [ ("realesrgan_2x", ⟨0.03, 3.2, 0.92, true⟩),
    ("realesrgan_4x", ⟨0.05, 5.8, 0.90, true⟩),
    ("realesrgan_8x", ⟨0.08, 12.5, 0.88, true⟩),
    ("realesrgan_anime", ⟨0.06, 6.2, 0.94, true⟩),
    ("realesrgan_face", ⟨0.07, 7.1, 0.96, true⟩) ]

/-- The `"generation"` entry of `available_models`. -/
def generation_models : List (String × ModelConfig) :=
  [ ("stable_diffusion", ⟨0.12, 8.5, 0.85, false⟩),
    ("dalle_3", ⟨0.40, 15.2, 0.95, false⟩) ]

/-- The registry built in `AIServiceOrchestrator.__init__`: categories in
insertion order, each holding models in insertion order. -/
def available_models : List (String × List (String × ModelConfig)) :=
  [ ("background_removal", background_removal_models),
    ("upscaling", upscaling_models),
    ("generation", generation_models) ]

/-- The `operation_mapping` dict inside `select_best_model`. -/
def operation_mapping (op : String) : Option String :=
  (([ ("remove_background", "background_removal"),
      ("background_removal", "background_removal"),
      ("upscale", "upscaling"),
      ("upscaling", "upscaling"),
      ("upscale_2x", "upscaling"),
      ("upscale_4x", "upscaling"),
      ("generate", "generation") ] :
        List (String × String)).find? (fun p => p.1 = op)).map Prod.snd

/-- Dict membership test `category in self.available_models` /
`self.available_models[category]`. -/
def lookupCategory (cat : String) : Option (List (String × ModelConfig)) :=
  (available_models.find? (fun p => p.1 = cat)).map Prod.snd

/-- `AIServiceOrchestrator._is_model_available`: scan categories in order,
return the `available` flag of the first category containing the model. -/
def is_model_available (m : String) : Bool :=
  match available_models.findSome?
      (fun cat => cat.2.find? (fun p => p.1 = m)) with
  | some (_, cfg) => cfg.available
  | none => false

/-- `AIServiceOrchestrator._get_model_config`. -/
def get_model_config (m : String) : Option ModelConfig :=
  (available_models.findSome?
      (fun cat => cat.2.find? (fun p => p.1 = m))).map Prod.snd

/-- `AIServiceOrchestrator._get_model_category`. -/
def get_model_category (m : String) : String :=
  match available_models.find?
      (fun cat => (cat.2.find? (fun p => p.1 = m)).isSome) with
  | some (catName, _) => catName
  | none => "unknown"

/-- The scoring loop of `select_best_model`: `best_score` starts at `-inf`
(embedded as `none`) and a candidate replaces the current best only when its
score is strictly greater, so ties keep the earlier element. -/
def pickLoop : List (String × ModelConfig) → Option (String × ℚ) → Option (String × ℚ)
  | [], acc => acc
  | (n, c) :: rest, acc =>
      match acc with
      | none => pickLoop rest (some (n, score c))
      | some (bn, bs) =>
          if score c > bs then pickLoop rest (some (n, score c))
          else pickLoop rest (some (bn, bs))

/-- The auto-selection path of `select_best_model` (no usable explicit
override): map the operation to a category, filter to available models,
score them, and fall back to `"rembg"` whenever anything is missing. -/
def selectAuto (operation : String) : String :=
  match operation_mapping operation with
  | none => "rembg"
  | some cat =>
      match lookupCategory cat with
      | none => "rembg"
      | some ms =>
          let avail := ms.filter (fun p => p.2.available)
          match pickLoop avail none with
          | none => "rembg"
          | some (b, _) => if b = "" then "rembg" else b

/-- `AIServiceOrchestrator.select_best_model`.  The Python guard is
`if model and self._is_model_available(model)`: a `None` or empty-string
override is falsy and ignored. -/
def select_best_model (operation : String) (model : Option String) : String :=
  match model with
  | some m => if m ≠ "" ∧ is_model_available m then m else selectAuto operation
  | none => selectAuto operation

/-- Recursive characterisation of the scoring loop: keep the head unless a
strictly better element appears later, i.e. pick the first maximum. -/
def specBest : List (String × ModelConfig) → Option (String × ℚ)
  | [] => none
  | p :: rest =>
      match specBest rest with
      | none => some (p.1, score p.2)
      | some (b, s) => if score p.2 ≥ s then some (p.1, score p.2) else some (b, s)

/-- Possible outcomes of running a synchronous worker under
`asyncio.wait_for(loop.run_in_executor(None, work), timeout)`:
`none` means the deadline elapsed before the work finished (the awaiting
coroutine receives `asyncio.TimeoutError`); `some r` means the work finished
before the deadline with result `r` (a value, or a raised exception). -/
abbrev WaitFor (α : Type) : Type := Option α

/-- `AIServiceOrchestrator._process_background_removal`
(`ai_services.py:305-391`).  Inputs: whether `from rembg import remove`
succeeds, and the `wait_for(..., timeout=60.0)` outcome of `process_sync`
(which re-raises its own errors, so a finished run is either success or an
exception with message `r`).  The `except asyncio.TimeoutError` branch
converts an elapsed deadline into `Exception("Background removal timed
out")`; `except ImportError` re-raises; `except Exception` wraps the message
as `"Background removal failed: ..."`. -/
def process_background_removal (rembgAvailable : Bool)
    (work : WaitFor (Option String)) : Except PyExc Unit :=
  if !rembgAvailable then
    .error (.importError "rembg library not installed or compatible")
  else
    match work with
    | none => .error (.exc "Background removal timed out")
    | some none => .ok ()
    | some (some r) => .error (.exc ("Background removal failed: " ++ r))

/-- `AIServiceOrchestrator._enhanced_intelligent_upscaling`
(`ai_services.py:1011-1260`).  Its `process_sync` catches all of its own
exceptions and returns a boolean, so the `wait_for(..., timeout=300.0)`
outcome is `none` (deadline elapsed, `asyncio.TimeoutError`, whose `str` is
`""`) or `some b`.  The function's own `except Exception` clause catches
*both* a timeout and a `False` result and re-raises them as
`Exception("Enhanced upscaling failed: " + str(e))`. -/
def enhanced_intelligent_upscaling (work : WaitFor Bool) : Except PyExc Unit :=
  match work with
  | some true => .ok ()
  | some false => .error (.exc ("Enhanced upscaling failed: " ++ "Enhanced upscaling failed"))
  | none => .error (.exc ("Enhanced upscaling failed: " ++ ""))

/-- `AIServiceOrchestrator._real_esrgan_upscaling` (`ai_services.py:650-770`):
`wait_for(..., timeout=300.0)` over a worker that may raise; no local
`except`, so an elapsed deadline propagates as `asyncio.TimeoutError`. -/
def real_esrgan_upscaling (work : WaitFor (Option String)) : Except PyExc Unit :=
  match work with
  | none => .error (.timeoutError "")
  | some none => .ok ()
  | some (some r) => .error (.exc r)

/-- `AIServiceOrchestrator._super_enhanced_pil_upscaling`
(`ai_services.py:772-862`): `run_in_executor` with no deadline at all; the
worker either finishes or raises. -/
def super_enhanced_pil_upscaling (work : Option String) : Except PyExc Unit :=
  match work with
  | none => .ok ()
  | some r => .error (.exc r)

/-- The model names given the enhanced-intelligent path in
`_process_upscaling` (`ai_services.py:574`). -/
def realesrganModelNames : List String :=
  ["realesrgan_2x", "realesrgan_4x", "realesrgan_8x", "realesrgan_anime",
    "realesrgan_face"]

/-- The external effect outcomes a single `process_image` run can observe. -/
structure UpscaleEffects where
  enhancedWork : WaitFor Bool
  realEsrganWork : WaitFor (Option String)
  superWork : Option String
deriving Repr, DecidableEq

/-- `AIServiceOrchestrator._process_upscaling` (`ai_services.py:566-608`).
For the five registry model names it delegates to
`_enhanced_intelligent_upscaling`; otherwise it tries
`_real_esrgan_upscaling` (swallowing any exception) and then
`_super_enhanced_pil_upscaling`.  Its `except asyncio.TimeoutError` clause
re-raises as `Exception("Upscaling timed out after 10 minutes")` and its
`except Exception` clause as `Exception("Upscaling failed: " + str(e))`. -/
def process_upscaling (model_name : String) (eff : UpscaleEffects) :
    Except PyExc Unit :=
  let body : Except PyExc Unit :=
    if realesrganModelNames.contains model_name then
      enhanced_intelligent_upscaling eff.enhancedWork
    else
      match real_esrgan_upscaling eff.realEsrganWork with
      | .ok _ => .ok ()
      | .error _ => super_enhanced_pil_upscaling eff.superWork
  match body with
  | .ok _ => .ok ()
  | .error (.timeoutError _) => .error (.exc "Upscaling timed out after 10 minutes")
  | .error e => .error (.exc ("Upscaling failed: " ++ e.str))

/-- All external effect outcomes a single
`AIServiceOrchestrator.process_image` run can observe: the rembg import, the
background-removal worker under its 60s deadline, the
`_simulate_background_removal` fallback (which only raises if even its last
`shutil.copy2` resort raises), the upscaling workers, and `shutil.copy2`. -/
structure Effects where
  rembgAvailable : Bool
  bgWork : WaitFor (Option String)
  simulateOutcome : Option String
  upscale : UpscaleEffects
  copyOutcome : Option String
deriving Repr, DecidableEq

/-- The `try:` body of `AIServiceOrchestrator.process_image`
(`ai_services.py:160-257`).  `input_stem` and `input_name` stand for
`Path(image_path).stem` and `.name`.  Option parsing
(`json.loads` with a bare `except` defaulting to `{}`) cannot raise and the
parsed options only feed response metadata, so they are not modelled.
A `raise` anywhere in the body surfaces as `.error`. -/
def process_image_body (operation : String) (model : Option String)
    (input_stem input_name : String) (eff : Effects) :
    Except PyExc ProcessResult :=
  let selected := select_best_model operation model
  match get_model_config selected with
  | none => .error (.exc ("Model " ++ selected ++ " not found"))
  | some cfg =>
      let output_filename :=
        if operation = "background_removal" then
          "processed_" ++ selected ++ "_" ++ input_stem ++ ".png"
        else
          "processed_" ++ selected ++ "_" ++ input_name
      let run : Except PyExc Unit :=
        if operation = "background_removal" then
          match process_background_removal eff.rembgAvailable eff.bgWork with
          | .ok _ => .ok ()
          | .error _ =>
              match eff.simulateOutcome with
              | none => .ok ()
              | some r => .error (.exc r)
        else if (operation = "upscaling" ∨ operation = "upscale")
            ∧ strContains selected "realesrgan" then
          match process_upscaling selected eff.upscale with
          | .ok _ => .ok ()
          | .error _ =>
              match eff.copyOutcome with
              | none => .ok ()
              | some r => .error (.exc r)
        else
          match eff.copyOutcome with
          | none => .ok ()
          | some r => .error (.exc r)
      match run with
      | .error e => .error e
      | .ok _ =>
          .ok { status := "success",
                output_path := some ("processed/" ++ output_filename),
                model_used := some selected,
                operation := some operation,
                cost := some cfg.cost }

/-- Python `model or "auto"`: `None` and `""` are falsy. -/
def modelOrAuto (model : Option String) : String :=
  match model with
  | none => "auto"
  | some m => if m = "" then "auto" else m

/-- `AIServiceOrchestrator.process_image`: the body wrapped in the outer
`try/except Exception`, which converts any raised exception into the
`{"status": "error", ...}` dictionary carrying `str(e)`, the elapsed time
and `model or "auto"`.  `elapsed` stands for `time.time() - start_time`. -/
def process_image (operation : String) (model : Option String)
    (input_stem input_name : String) (eff : Effects) (elapsed : ℚ) :
    ProcessResult :=
  match process_image_body operation model input_stem input_name eff with
  | .ok r => { r with processing_time := some elapsed }
  | .error e =>
      { status := "error",
        error := some e.str,
        processing_time := some elapsed,
        model_attempted := some (modelOrAuto model) }

end AiServices

namespace ModularAi

/-- Python `model or default` on an optional string (`None` and `""` are
falsy). -/
def modelOrDefault (model : Option String) (default : String) : String :=
  match model with
  | none => default
  | some m => if m = "" then default else m

/-- External outcomes a `ModularAIOrchestrator.process_image` run can
observe (`src/backend/modular_ai_services.py:82-231`): which modules were
initialised, and the result of the one module call the chosen branch makes.
A module call either raises (`.error msg`) or returns its value. -/
structure ModEffects where
  bgModule : Bool
  upscModule : Bool
  restModule : Bool
  removeBgResult : Except String Bool
  upscaleResult : Except String Bool
  restoreResult : Except String (Option String × Option String)
deriving Repr

/-- The `try:` body of `ModularAIOrchestrator.process_image`: dispatch on
the operation string, raise on a missing module, a falsy module result or an
unknown operation, and otherwise build the success dictionary.
`restoreResult`'s first component is `output_path_result` (`none` when
falsy) and its second is `metadata.get('error')` (`none` when absent or when
`metadata` itself is falsy). -/
def process_image_body (operation : String) (model : Option String)
    (input_stem : String) (eff : ModEffects) : Except String ProcessResult :=
  if operation = "background_removal" then
    if eff.bgModule then
      match eff.removeBgResult with
      | .error r => .error r
      | .ok true =>
          .ok { status := "success",
                output_path := some ("processed/bg_removed_"
                  ++ modelOrDefault model "auto" ++ "_" ++ input_stem ++ ".png"),
                model_used := some (modelOrDefault model "auto"),
                operation := some operation }
      | .ok false => .error "Background removal failed"
    else .error "Background Remover module not available"
  else if operation = "upscaling" then
    if eff.upscModule then
      match eff.upscaleResult with
      | .error r => .error r
      | .ok true =>
          .ok { status := "success",
                output_path := some ("processed/upscaled_"
                  ++ modelOrDefault model "auto" ++ "_" ++ input_stem ++ ".jpg"),
                model_used := some (modelOrDefault model "auto"),
                operation := some operation }
      | .ok false => .error "Image upscaling failed"
    else .error "Upscaler Engine module not available"
  else if operation = "photo_restoration" then
    if eff.restModule then
      match eff.restoreResult with
      | .error r => .error r
      | .ok (some outPath, _) =>
          .ok { status := "success",
                output_path := some outPath,
                model_used := some (modelOrDefault model "gfpgan_face_restore"),
                operation := some operation }
      | .ok (none, md) =>
          .error (match md with
            | some m => m
            | none => "Photo restoration failed")
    else .error "Photo Restoration Engine module not available"
  else
    .error ("Unknown operation: " ++ operation)

/-- `ModularAIOrchestrator.process_image`: the body wrapped in the outer
`try/except Exception`, which turns any raised exception into the
`{"status": "error", ...}` dictionary. -/
def process_image (operation : String) (model : Option String)
    (input_stem : String) (eff : ModEffects) (elapsed : ℚ) : ProcessResult :=
  match process_image_body operation model input_stem eff with
  | .ok r => { r with processing_time := some elapsed }
  | .error e =>
      { status := "error",
        error := some e,
        processing_time := some elapsed,
        operation := some operation,
        model_attempted := some (modelOrDefault model "auto") }

end ModularAi

namespace NoRedis

/-- `Config.MAX_FILE_SIZE` in `src/backend/main_advanced_noredis.py`. -/
def MAX_FILE_SIZE : ℕ := 50 * 1024 * 1024

/-- `Config.SUPPORTED_FORMATS` (a Python set of extension strings). -/
def SUPPORTED_FORMATS : List String :=
  [".jpg", ".jpeg", ".png", ".webp", ".tiff"]

/-- `validate_file` (`main_advanced_noredis.py:268-281`): raise
`HTTPException(413)` when `file.size > MAX_FILE_SIZE`, then
`HTTPException(400)` when the lower-cased suffix is unsupported.  Only the
HTTP status code of the raised exception is modelled; `size` is `file.size`
and `suffix_lower` is `Path(file.filename).suffix.lower()`. -/
def validate_file (size : ℕ) (suffix_lower : String) : Except ℕ Unit :=
  if size > MAX_FILE_SIZE then
    .error 413
  else if ¬ SUPPORTED_FORMATS.contains suffix_lower then
    .error 400
  else
    .ok ()

/-- A snapshot of one entry of the in-memory `tasks` dict, restricted to the
keys claims C5/C6/C10 mention. -/
structure TaskSnap where
  status : String
  progress : ℕ
deriving Repr, DecidableEq

/-- The `enhance_image` endpoint (`main_advanced_noredis.py:395-463`) up to
the point where it returns: validation runs first, then the upload is
written (`saveFail` is the exception message if that write raises, turned
into `HTTPException(500)` by the endpoint's own handler), and only then is
the `"queued"` task record inserted into the task store.  The returned pair
is (HTTP outcome, task store after the call). -/
def enhance_image (tasks : List (String × TaskSnap)) (size : ℕ)
    (suffix_lower : String) (task_id : String) (saveFail : Option String) :
    Except ℕ String × List (String × TaskSnap) :=
  match validate_file size suffix_lower with
  | .error code => (.error code, tasks)
  | .ok _ =>
      match saveFail with
      | some _ => (.error 500, tasks)
      | none =>
          (.ok task_id,
            tasks ++ [(task_id, { status := "queued", progress := 0 })])

/-- Where a run of `AdvancedAIProcessor.process_image`
(`main_advanced_noredis.py:150-232`) stops.  GFPGAN face-enhancement errors
are swallowed by their own `try/except` and are therefore not failure
points. -/
inductive RunOutcome where
  | success
  | failBeforeLoad
  | failAtGetModel
  | failAtEnhance
  | failAtSave
deriving Repr, DecidableEq

/-- The sequence of `progress_callback` values one run emits: 10 after the
image loads, 30 after the model loads, 70 after enhancement, 90 before
saving, 100 on completion; the `except` path emits
`progress_callback(0, ...)` before re-raising. -/
def progressUpdates : RunOutcome → List ℕ
  | .success => [10, 30, 70, 90, 100]
  | .failBeforeLoad => [0]
  | .failAtGetModel => [10, 0]
  | .failAtEnhance => [10, 30, 0]
  | .failAtSave => [10, 30, 70, 90, 0]

/-- Apply successive progress callbacks to a task record
(`background_process_image`'s `progress_callback` updates only `progress`
and `message`, never `status`), collecting every intermediate snapshot. -/
def applyCallbacks (t : TaskSnap) : List ℕ → List TaskSnap
  | [] => []
  | p :: rest =>
      let t' : TaskSnap := { t with progress := p }
      t' :: applyCallbacks t' rest

/-- The successive stored states of one task record under
`background_process_image` (`main_advanced_noredis.py:284-368`): the
`"queued"` record created by `enhance_image`, one snapshot per progress
callback, and the terminal update — `status := "completed", progress := 100`
on success, `status := "error"` (progress untouched) on failure.
WebSocket pushes read these states but never mutate them. -/
def taskTrace (o : RunOutcome) : List TaskSnap :=
  let init : TaskSnap := { status := "queued", progress := 0 }
  let mids := applyCallbacks init (progressUpdates o)
  let lastMid := mids.getLastD init
  let final : TaskSnap :=
    match o with
    | .success => { lastMid with status := "completed", progress := 100 }
    | _ => { lastMid with status := "error" }
  (init :: mids) ++ [final]

end NoRedis

namespace MainAdvanced

/-- Where a run of `AdvancedImageProcessor.process_image_advanced`
(`src/backend/main_advanced.py:182-221`) stops: either it completes, or it
raises after having delivered `k` of its progress callbacks. -/
inductive MARun where
  | success
  | failure (callbacksDelivered : ℕ)
deriving Repr, DecidableEq

/-- The progress values `process_image_advanced` and its helper
`_real_esrgan_advanced_processing` report: 10 (initializing), 20 (loading
model), 40 (processing), 90 (finalizing). -/
def maCallbackValues : List ℕ := [10, 20, 40, 90]

/-- The successive stored states of one `ProcessingStatus` record under
`process_image_background` (`main_advanced.py:564-616`): created `"queued"`
with progress 0; `progress_callback` always sets `status := "processing"`
(first with progress 5, then with each processor value); the terminal update
sets `"completed"`/progress 100 on success and `"failed"` (progress
untouched) on exception. -/
def maTrace (r : MARun) : List NoRedis.TaskSnap :=
  let init : NoRedis.TaskSnap := { status := "queued", progress := 0 }
  let start : NoRedis.TaskSnap := { status := "processing", progress := 5 }
  let mids : List NoRedis.TaskSnap :=
    match r with
    | .success =>
        maCallbackValues.map (fun p => { status := "processing", progress := p })
    | .failure k =>
        (maCallbackValues.take k).map
          (fun p => { status := "processing", progress := p })
  let lastMid := mids.getLastD start
  let final : NoRedis.TaskSnap :=
    match r with
    | .success => { status := "completed", progress := 100 }
    | .failure _ => { lastMid with status := "failed" }
  init :: start :: mids ++ [final]

/-- The rank of a task status in the lifecycle
`Queued → Processing → {Completed | Failed}`. -/
def statusRank (s : String) : ℕ :=
  if s = "queued" then 0 else if s = "processing" then 1 else 2

end MainAdvanced

open AiServices

theorem specBest_eq_none_iff (l : List (String × ModelConfig)) :
    specBest l = none ↔ l = [] := by
  cases l with
  | nil => simp [specBest]
  | cons p rest =>
      simp only [specBest]
      cases specBest rest with
      | none => simp
      | some q =>
          obtain ⟨b, s⟩ := q
          by_cases h : score p.2 ≥ s <;> simp [h]

theorem pickLoop_some (l : List (String × ModelConfig)) (b : String) (s : ℚ) :
    pickLoop l (some (b, s)) =
      match specBest l with
      | none => some (b, s)
      | some (b', s') => if s' > s then some (b', s') else some (b, s) := by
  induction l generalizing b s with
  | nil => simp [pickLoop, specBest]
  | cons p rest ih =>
      obtain ⟨n, c⟩ := p
      simp only [pickLoop, specBest]
      cases hrest : specBest rest with
      | none =>
          by_cases h : score c > s
          · simp only [if_pos h, ih, hrest, if_pos h]
          · simp only [if_neg h, ih, hrest, if_neg h]
      | some q =>
          obtain ⟨b', s'⟩ := q
          by_cases h1 : score c > s
          · simp only [if_pos h1, ih, hrest]
            by_cases h2 : score c ≥ s'
            · have h3 : ¬ s' > score c := by linarith
              have h4 : score c > s := h1
              simp [h2, h3, h4]
            · have h3 : s' > score c := by linarith
              have h4 : s' > s := by linarith
              simp [h2, h3, h4]
          · simp only [if_neg h1, ih, hrest]
            by_cases h2 : score c ≥ s'
            · have h3 : ¬ s' > s := by linarith
              simp [h2, h1, h3]
            · simp [h2]

theorem pickLoop_none (l : List (String × ModelConfig)) :
    pickLoop l none = specBest l := by
  cases l with
  | nil => rfl
  | cons p rest =>
      obtain ⟨n, c⟩ := p
      simp only [pickLoop, pickLoop_some, specBest]
      cases hrest : specBest rest with
      | none => rfl
      | some q =>
          obtain ⟨b', s'⟩ := q
          by_cases h : score c ≥ s'
          · have h2 : ¬ s' > score c := by linarith
            simp [h, h2]
          · have h2 : s' > score c := by linarith
            simp [h, h2]

/-- The loop result is the first score-maximising element of the list. -/
theorem specBest_spec (l : List (String × ModelConfig)) (b : String) (s : ℚ)
    (h : specBest l = some (b, s)) :
    ∃ (i : ℕ) (hi : i < l.length),
      (l.get ⟨i, hi⟩).1 = b ∧ score (l.get ⟨i, hi⟩).2 = s ∧
      (∀ (j : ℕ) (hj : j < l.length), score (l.get ⟨j, hj⟩).2 ≤ s) ∧
      (∀ (j : ℕ) (hj : j < l.length), j < i → score (l.get ⟨j, hj⟩).2 < s) := by
  induction l generalizing b s with
  | nil => simp [specBest] at h
  | cons p rest ih =>
      cases hrest : specBest rest with
      | none =>
          simp only [specBest, hrest, Option.some.injEq, Prod.mk.injEq] at h
          have hnil : rest = [] := (specBest_eq_none_iff rest).mp hrest
          subst hnil
          refine ⟨0, by simp, h.1, h.2, ?_, ?_⟩
          · intro j hj
            have hj0 : j = 0 := by
              simp only [List.length_cons, List.length_nil] at hj
              omega
            subst hj0
            exact le_of_eq h.2
          · intro j hj hj0
            omega
      | some q =>
          obtain ⟨b₀, s₀⟩ := q
          obtain ⟨i₀, hi₀, hname, hscore, hmax, hfirst⟩ := ih b₀ s₀ hrest
          by_cases hc : score p.2 ≥ s₀
          · simp only [specBest, hrest, if_pos hc, Option.some.injEq,
              Prod.mk.injEq] at h
            refine ⟨0, by simp, h.1, h.2, ?_, ?_⟩
            · intro j hj
              cases j with
              | zero => exact le_of_eq h.2
              | succ k =>
                  have hk : k < rest.length := by simpa using hj
                  have h1 := hmax k hk
                  have h2 : score (rest.get ⟨k, hk⟩).2 ≤ s := by
                    rw [← h.2]; linarith
                  exact h2
            · intro j hj hj0
              omega
          · simp only [specBest, hrest, if_neg hc, Option.some.injEq,
              Prod.mk.injEq] at h
            obtain ⟨hb, hs⟩ := h
            subst hb; subst hs
            refine ⟨i₀ + 1, by simpa using Nat.succ_lt_succ hi₀, ?_, ?_, ?_, ?_⟩
            · exact hname
            · exact hscore
            · intro j hj
              cases j with
              | zero => exact le_of_lt (lt_of_not_ge hc)
              | succ k =>
                  have hk : k < rest.length := by simpa using hj
                  exact hmax k hk
            · intro j hj hj0
              cases j with
              | zero => exact lt_of_not_ge hc
              | succ k =>
                  have hk : k < rest.length := by simpa using hj
                  have hki : k < i₀ := by omega
                  exact hfirst k hk hki

/-- Every model name in a registry category is a non-empty string. -/
theorem lookupCategory_names (cat : String) (ms : List (String × ModelConfig))
    (h : lookupCategory cat = some ms) :
    ∀ p ∈ ms, p.1 ≠ "" := by
  unfold lookupCategory at h
  cases hfind : available_models.find? (fun p => p.1 = cat) with
  | none => rw [hfind] at h; simp at h
  | some q =>
      rw [hfind] at h
      simp only [Option.map_some', Option.some.injEq] at h
      have hq : q ∈ available_models := List.mem_of_find?_eq_some hfind
      subst h
      simp only [available_models, List.mem_cons, List.not_mem_nil, or_false] at hq
      rcases hq with hq | hq | hq <;> subst hq <;>
        simp [background_removal_models, upscaling_models, generation_models]

/-- Unfolding of the auto-selection path once the operation's category and
model list are known. -/
theorem selectAuto_eq (op cat : String) (ms : List (String × ModelConfig))
    (hmap : operation_mapping op = some cat)
    (hcat : lookupCategory cat = some ms) :
    selectAuto op =
      match pickLoop (ms.filter (fun p => p.2.available)) none with
      | none => "rembg"
      | some (b, _) => if b = "" then "rembg" else b := by
  simp only [selectAuto, hmap, hcat]

/-- C1: for every operation whose category contains at least one available
backend and whose request carries no explicit backend override,
`select_best_model` returns exactly the available backend of that category
that maximises `score = quality*100 - cost*50 - speed*2`, with ties broken in
favour of the earlier-registered backend: the result is the first
score-maximising element of the insertion-ordered available list, so
selection is deterministic. -/
theorem C1_select_best_model_first_argmax
    (op cat : String) (ms : List (String × ModelConfig))
    (hmap : operation_mapping op = some cat)
    (hcat : lookupCategory cat = some ms)
    (hne : ms.filter (fun p => p.2.available) ≠ []) :
    ∃ (i : ℕ) (hi : i < (ms.filter (fun p => p.2.available)).length),
      select_best_model op none
          = ((ms.filter (fun p => p.2.available)).get ⟨i, hi⟩).1 ∧
      (∀ (j : ℕ) (hj : j < (ms.filter (fun p => p.2.available)).length),
        score ((ms.filter (fun p => p.2.available)).get ⟨j, hj⟩).2
          ≤ score ((ms.filter (fun p => p.2.available)).get ⟨i, hi⟩).2) ∧
      (∀ (j : ℕ) (hj : j < (ms.filter (fun p => p.2.available)).length), j < i →
        score ((ms.filter (fun p => p.2.available)).get ⟨j, hj⟩).2
          < score ((ms.filter (fun p => p.2.available)).get ⟨i, hi⟩).2) := by
  cases hs : specBest (ms.filter (fun p => p.2.available)) with
  | none => exact absurd ((specBest_eq_none_iff _).mp hs) hne
  | some q =>
      obtain ⟨b, s⟩ := q
      obtain ⟨i, hi, hname, hscore, hmax, hfirst⟩ := specBest_spec _ b s hs
      have hb : b ≠ "" := by
        have hmem1 : (ms.filter (fun p => p.2.available)).get ⟨i, hi⟩
            ∈ ms.filter (fun p => p.2.available) := List.get_mem _ _ _
        have hmem : (ms.filter (fun p => p.2.available)).get ⟨i, hi⟩ ∈ ms :=
          List.mem_of_mem_filter hmem1
        have := lookupCategory_names cat ms hcat _ hmem
        rw [hname] at this
        exact this
      refine ⟨i, hi, ?_, ?_, ?_⟩
      · have h1 : select_best_model op none = selectAuto op := rfl
        rw [h1, selectAuto_eq op cat ms hmap hcat, pickLoop_none, hs]
        simp only [if_neg hb]
        exact hname.symm
      · intro j hj
        rw [hscore]
        exact hmax j hj
      · intro j hj hji
        rw [hscore]
        exact hfirst j hj hji

/-- Witness for C1 at the concrete registry: operation `"upscaling"` has five
available backends and the selection policy applies to them. -/
theorem C1_select_best_model_first_argmax_witness :
    operation_mapping "upscaling" = some "upscaling" ∧
    lookupCategory "upscaling" = some upscaling_models ∧
    upscaling_models.filter (fun p => p.2.available) ≠ [] ∧
    (∃ (i : ℕ) (hi : i < (upscaling_models.filter (fun p => p.2.available)).length),
      select_best_model "upscaling" none
          = ((upscaling_models.filter (fun p => p.2.available)).get ⟨i, hi⟩).1 ∧
      (∀ (j : ℕ) (hj : j < (upscaling_models.filter (fun p => p.2.available)).length),
        score ((upscaling_models.filter (fun p => p.2.available)).get ⟨j, hj⟩).2
          ≤ score ((upscaling_models.filter (fun p => p.2.available)).get ⟨i, hi⟩).2) ∧
      (∀ (j : ℕ) (hj : j < (upscaling_models.filter (fun p => p.2.available)).length),
        j < i →
        score ((upscaling_models.filter (fun p => p.2.available)).get ⟨j, hj⟩).2
          < score ((upscaling_models.filter (fun p => p.2.available)).get ⟨i, hi⟩).2)) :=
  ⟨rfl, rfl, by simp [upscaling_models],
    C1_select_best_model_first_argmax "upscaling" "upscaling" upscaling_models
      rfl rfl (by simp [upscaling_models])⟩

/-- C2 counterexample: the `"generation"` category has zero available
backends, yet selection for operation `"generate"` returns `"rembg"`, whose
category is `"background_removal"`, not the requested `"generation"` — the
hard-coded baseline does not belong to the requested category. -/
theorem C2_baseline_wrong_category_counterexample :
    operation_mapping "generate" = some "generation" ∧
    lookupCategory "generation" = some generation_models ∧
    generation_models.filter (fun p => p.2.available) = [] ∧
    select_best_model "generate" none = "rembg" ∧
    get_model_category "rembg" = "background_removal" ∧
    "background_removal" ≠ "generation" :=
  ⟨rfl, rfl, rfl, rfl, rfl, by decide⟩

/-- C2 amended: for every operation whose category has zero available
backends, selection still returns a non-empty result, namely the single
hard-coded baseline `"rembg"` — which belongs to the `"background_removal"`
category and therefore not necessarily to the requested category. -/
theorem C2_empty_category_selects_rembg
    (op cat : String) (ms : List (String × ModelConfig))
    (hmap : operation_mapping op = some cat)
    (hcat : lookupCategory cat = some ms)
    (hempty : ms.filter (fun p => p.2.available) = []) :
    select_best_model op none = "rembg" ∧
    get_model_category "rembg" = "background_removal" := by
  constructor
  · have h1 : select_best_model op none = selectAuto op := rfl
    rw [h1, selectAuto_eq op cat ms hmap hcat, hempty]
    rfl
  · rfl

/-- Witness for C2 amended at the concrete registry: operation `"generate"`
maps to the `"generation"` category, which has no available backend. -/
theorem C2_empty_category_selects_rembg_witness :
    operation_mapping "generate" = some "generation" ∧
    lookupCategory "generation" = some generation_models ∧
    generation_models.filter (fun p => p.2.available) = [] ∧
    (select_best_model "generate" none = "rembg" ∧
      get_model_category "rembg" = "background_removal") :=
  ⟨rfl, rfl, rfl,
    C2_empty_category_selects_rembg "generate" "generation" generation_models
      rfl rfl rfl⟩

/-- C3 counterexample: with the registry exactly as in the claim
(A = `"rembg"`: cost 0.02, speed 2.5, quality 0.9, available;
B = `"remove_bg_api"`: cost 0.15, speed 3.5, quality 0.85, unavailable),
explicitly requesting B does **not** make B the primary selection: the
override is ignored because B is unavailable, and selection returns A
(`"rembg"`), not a list `[B, A]` with B at index 0. -/
theorem C3_explicit_unavailable_counterexample :
    background_removal_models
        = [ ("rembg", ⟨0.02, 2.5, 0.9, true⟩),
            ("remove_bg_api", ⟨0.15, 3.5, 0.85, false⟩) ] ∧
    is_model_available "remove_bg_api" = false ∧
    select_best_model "background_removal" (some "remove_bg_api") = "rembg" ∧
    "rembg" ≠ "remove_bg_api" :=
  ⟨rfl, rfl, rfl, by decide⟩

/-- C3 amended: without an override, selecting in the scenario category
yields A (`"rembg"`) only — B is excluded for unavailability.  When B
(`"remove_bg_api"`) is explicitly requested, the override is ignored because
B is unavailable (`_is_model_available` returns false) and selection again
yields A; `select_best_model` returns a single primary model, never a list
with B at index 0. -/
theorem C3_scenario_amended :
    select_best_model "background_removal" none = "rembg" ∧
    is_model_available "remove_bg_api" = false ∧
    select_best_model "background_removal" (some "remove_bg_api") = "rembg" :=
  ⟨rfl, rfl, rfl⟩

/-- The timeout classification of the background-removal envelope can never
collide with one of its synchronous-failure classifications, whatever the
failure reason. -/
theorem bg_timeout_reason_distinct (r : String) :
    "Background removal failed: " ++ r ≠ "Background removal timed out" := by
  intro h
  have hd : ("Background removal failed: ").data ++ r.data
      = ("Background removal timed out").data := by
    rw [← String.data_append, h]
  have h1 : (("Background removal failed: ").data ++ r.data).take 27
      = ("Background removal timed out").data.take 27 := by rw [hd]
  have h3 := List.take_left ("Background removal failed: ").data r.data
  have hlen : ("Background removal failed: ").data.length = 27 := by decide
  rw [hlen] at h3
  rw [h3] at h1
  exact absurd h1 (by decide)

/-- C4 counterexample: the upscaling path *is* run under a deadline
(`asyncio.wait_for(..., timeout=300.0)` in
`_enhanced_intelligent_upscaling`), yet when the underlying work has not
finished at the deadline the outcome surfaced by `_process_upscaling` is its
generic failure classification `"Upscaling failed: ..."` — not its own
distinct timeout classification `"Upscaling timed out after 10 minutes"` —
because `_enhanced_intelligent_upscaling`'s `except Exception` clause
swallows the `asyncio.TimeoutError` first. -/
theorem C4_upscaling_timeout_misclassified_counterexample :
    process_upscaling "realesrgan_4x"
        { enhancedWork := none, realEsrganWork := some none, superWork := none }
      = .error (.exc ("Upscaling failed: " ++ "Enhanced upscaling failed: ")) ∧
    "Upscaling failed: " ++ "Enhanced upscaling failed: "
      ≠ "Upscaling timed out after 10 minutes" :=
  ⟨rfl, by decide⟩

/-- C4 amended: the background-removal envelope does classify an elapsed
deadline as the distinct outcome `"Background removal timed out"` (never
equal to a `"Background removal failed: ..."` reason), and `process_image`
then proceeds to the fallback candidate (`_simulate_background_removal`),
succeeding when the fallback succeeds; the upscaling envelope, however,
surfaces an elapsed 300-second deadline as the generic failure
`"Upscaling failed: Enhanced upscaling failed: "`, never reaching the
timeout classification written in `_process_upscaling`. -/
theorem C4_timeout_classification_amended
    (r input_stem input_name : String) (elapsed : ℚ)
    (up : UpscaleEffects) (copy : Option String) :
    process_background_removal true none
        = .error (.exc "Background removal timed out") ∧
    "Background removal failed: " ++ r ≠ "Background removal timed out" ∧
    (process_image "background_removal" none input_stem input_name
        { rembgAvailable := true, bgWork := none, simulateOutcome := none,
          upscale := up, copyOutcome := copy } elapsed).status = "success" ∧
    (∀ m ∈ realesrganModelNames, ∀ (re : WaitFor (Option String)) (su : Option String),
      process_upscaling m
          { enhancedWork := none, realEsrganWork := re, superWork := su }
        = .error (.exc ("Upscaling failed: " ++ "Enhanced upscaling failed: "))) := by
  refine ⟨rfl, bg_timeout_reason_distinct r, rfl, ?_⟩
  intro m hm re su
  have hc : realesrganModelNames.contains m = true := by
    fin_cases hm <;> rfl
  simp only [process_upscaling, enhanced_intelligent_upscaling]
  rw [if_pos hc]
  rfl

/-- Witness for C4 amended at concrete inputs. -/
theorem C4_timeout_classification_amended_witness :
    process_background_removal true none
        = .error (.exc "Background removal timed out") ∧
    "Background removal failed: " ++ "boom" ≠ "Background removal timed out" ∧
    (process_image "background_removal" none "img" "img.png"
        { rembgAvailable := true, bgWork := none, simulateOutcome := none,
          upscale := { enhancedWork := some true, realEsrganWork := some none,
                       superWork := none },
          copyOutcome := none } 1).status = "success" ∧
    (∀ m ∈ realesrganModelNames, ∀ (re : WaitFor (Option String)) (su : Option String),
      process_upscaling m
          { enhancedWork := none, realEsrganWork := re, superWork := su }
        = .error (.exc ("Upscaling failed: " ++ "Enhanced upscaling failed: "))) :=
  C4_timeout_classification_amended "boom" "img" "img.png" 1
    { enhancedWork := some true, realEsrganWork := some none, superWork := none }
    none

/-- C7 counterexample: a background-removal task whose primary attempt
(rembg, reason `"boom"`) and fallback attempt (the simulation, reason
`"disk full"`) both fail ends in the error dictionary — but the backend
identifier it records is `model_attempted = "auto"` (the caller's requested
override, `model or "auto"`), which is not the id of any registered backend,
let alone of the last attempted one. -/
theorem C7_error_attribution_counterexample :
    (process_image "background_removal" none "img" "img.png"
        { rembgAvailable := true, bgWork := some (some "boom"),
          simulateOutcome := some "disk full",
          upscale := { enhancedWork := some true, realEsrganWork := some none,
                       superWork := none },
          copyOutcome := none } 1).status = "error" ∧
    (process_image "background_removal" none "img" "img.png"
        { rembgAvailable := true, bgWork := some (some "boom"),
          simulateOutcome := some "disk full",
          upscale := { enhancedWork := some true, realEsrganWork := some none,
                       superWork := none },
          copyOutcome := none } 1).error = some "disk full" ∧
    (process_image "background_removal" none "img" "img.png"
        { rembgAvailable := true, bgWork := some (some "boom"),
          simulateOutcome := some "disk full",
          upscale := { enhancedWork := some true, realEsrganWork := some none,
                       superWork := none },
          copyOutcome := none } 1).model_attempted = some "auto" ∧
    get_model_config "auto" = none :=
  ⟨rfl, rfl, rfl, rfl⟩

/-- C7 amended: when the background-removal fallback chain is exhausted
(the rembg attempt raises with reason `r1`, then the simulation fallback
raises with reason `r2`), the task ends in the error dictionary and the
surfaced error string is the *last* attempt's reason `r2` — the earlier
reason `r1` is overwritten — but the dictionary identifies the attempt only
as `model or "auto"` (here `"auto"`), not as the id of the last attempted
backend. -/
theorem C7_last_error_surfaced_amended
    (r1 r2 input_stem input_name : String) (elapsed : ℚ)
    (up : UpscaleEffects) (copy : Option String) :
    (process_image "background_removal" none input_stem input_name
        { rembgAvailable := true, bgWork := some (some r1),
          simulateOutcome := some r2, upscale := up,
          copyOutcome := copy } elapsed)
      = { status := "error", error := some r2,
          processing_time := some elapsed, model_attempted := some "auto" } :=
  rfl

/-- C8 counterexample: for an operation matching no backend category
(`operation_mapping` yields `none`), selection does not fail with any
`UnknownOperation` error — it silently returns the default `"rembg"`, and
`process_image` completes with status `"success"` (the generic copy path). -/
theorem C8_unknown_operation_counterexample :
    operation_mapping "3d_render" = none ∧
    select_best_model "3d_render" none = "rembg" ∧
    (process_image "3d_render" none "img" "img.png"
        { rembgAvailable := true, bgWork := some none, simulateOutcome := none,
          upscale := { enhancedWork := some true, realEsrganWork := some none,
                       superWork := none },
          copyOutcome := none } 1).status = "success" :=
  ⟨rfl, rfl, rfl⟩

/-- C8 amended: a request whose operation matches no registered backend
category does not fail: `select_best_model` silently falls back to
`"rembg"`, and `process_image` takes the generic copy path and returns a
success dictionary (assuming the copy itself does not raise).  No
`UnknownOperation` error exists in the code, and the `/api/v1/process`
endpoint in `main.py` keeps no task store at all, so no task record is
created for any request. -/
theorem C8_unknown_operation_amended (op : String)
    (hmap : operation_mapping op = none)
    (input_stem input_name : String) (eff : Effects) (elapsed : ℚ)
    (hcopy : eff.copyOutcome = none) :
    select_best_model op none = "rembg" ∧
    (process_image op none input_stem input_name eff elapsed).status
      = "success" := by
  have hsel : select_best_model op none = "rembg" := by
    show selectAuto op = "rembg"
    unfold selectAuto
    rw [hmap]
  refine ⟨hsel, ?_⟩
  have hbg : ¬ op = "background_removal" := by
    intro h; subst h; exact absurd hmap (by decide)
  have hup : ¬ ((op = "upscaling" ∨ op = "upscale")
      ∧ strContains (select_best_model op none) "realesrgan" = true) := by
    rintro ⟨h1 | h1, h2⟩ <;> (subst h1; exact absurd hmap (by decide))
  unfold process_image process_image_body
  rw [hsel]
  simp only [if_neg hbg]
  rw [hsel] at hup
  simp only [if_neg hup, hcopy]
  rfl

/-- Witness for C8 amended at operation `"3d_render"`. -/
theorem C8_unknown_operation_amended_witness :
    operation_mapping "3d_render" = none ∧
    (Effects.copyOutcome
      { rembgAvailable := true, bgWork := some none, simulateOutcome := none,
        upscale := { enhancedWork := some true, realEsrganWork := some none,
                     superWork := none },
        copyOutcome := none } = none) ∧
    (select_best_model "3d_render" none = "rembg" ∧
      (process_image "3d_render" none "img" "img.png"
          { rembgAvailable := true, bgWork := some none, simulateOutcome := none,
            upscale := { enhancedWork := some true, realEsrganWork := some none,
                         superWork := none },
            copyOutcome := none } 1).status = "success") :=
  ⟨rfl, rfl,
    C8_unknown_operation_amended "3d_render" rfl "img" "img.png"
      { rembgAvailable := true, bgWork := some none, simulateOutcome := none,
        upscale := { enhancedWork := some true, realEsrganWork := some none,
                     superWork := none },
        copyOutcome := none } 1 rfl⟩

/-- Every dictionary the `try:` body of `AIServiceOrchestrator.process_image`
returns normally has `status = "success"`. -/
theorem process_image_body_ok_status (operation : String) (model : Option String)
    (input_stem input_name : String) (eff : Effects) (r : ProcessResult)
    (h : process_image_body operation model input_stem input_name eff = .ok r) :
    r.status = "success" := by
  simp only [process_image_body] at h
  cases hcfg : get_model_config (select_best_model operation model) with
  | none =>
      rw [hcfg] at h
      exact absurd h (by simp)
  | some cfg =>
      rw [hcfg] at h
      repeat' split at h
      all_goals try (injection h with h)
      all_goals first
        | (subst h; rfl)
        | simp_all

/-- Every dictionary the `try:` body of `ModularAIOrchestrator.process_image`
returns normally has `status = "success"`. -/
theorem modular_body_ok_status (operation : String) (model : Option String)
    (input_stem : String) (eff : ModularAi.ModEffects) (r : ProcessResult)
    (h : ModularAi.process_image_body operation model input_stem eff = .ok r) :
    r.status = "success" := by
  unfold ModularAi.process_image_body at h
  repeat' split at h
  all_goals try (injection h with h)
  all_goals first
    | (subst h; rfl)
    | simp_all

/-- C9: both `process_image` entry points are total at their public
interface.  Whatever the operation string, override, options-independent
effect outcomes and elapsed time, `AIServiceOrchestrator.process_image`
returns a dictionary whose status is `"success"`, or `"error"` together with
an error string, the elapsed processing time and `model or "auto"`; and
`ModularAIOrchestrator.process_image` likewise returns `"success"`, or
`"error"` with an error string; both always carry the processing time.
No exception propagates to the caller (the embedding's result type is a
plain dictionary, not an `Except`). -/
theorem C9_process_image_total
    (operation : String) (model : Option String) (input_stem input_name : String)
    (eff : Effects) (elapsed : ℚ)
    (operation2 : String) (model2 : Option String) (input_stem2 : String)
    (meff : ModularAi.ModEffects) (elapsed2 : ℚ) :
    ((process_image operation model input_stem input_name eff elapsed).status
        = "success" ∨
      ((process_image operation model input_stem input_name eff elapsed).status
          = "error" ∧
        (process_image operation model input_stem input_name eff
          elapsed).error.isSome = true ∧
        (process_image operation model input_stem input_name eff
          elapsed).model_attempted = some (modelOrAuto model))) ∧
    (process_image operation model input_stem input_name eff
      elapsed).processing_time = some elapsed ∧
    ((ModularAi.process_image operation2 model2 input_stem2 meff elapsed2).status
        = "success" ∨
      ((ModularAi.process_image operation2 model2 input_stem2 meff
          elapsed2).status = "error" ∧
        (ModularAi.process_image operation2 model2 input_stem2 meff
          elapsed2).error.isSome = true)) ∧
    (ModularAi.process_image operation2 model2 input_stem2 meff
      elapsed2).processing_time = some elapsed2 := by
  refine ⟨?_, ?_, ?_, ?_⟩
  · unfold process_image
    cases hb : process_image_body operation model input_stem input_name eff with
    | ok r =>
        exact Or.inl
          (process_image_body_ok_status operation model input_stem input_name
            eff r hb)
    | error e => exact Or.inr ⟨rfl, rfl, rfl⟩
  · unfold process_image
    cases hb : process_image_body operation model input_stem input_name eff <;>
      rfl
  · unfold ModularAi.process_image
    cases hb : ModularAi.process_image_body operation2 model2 input_stem2 meff with
    | ok r =>
        exact Or.inl
          (modular_body_ok_status operation2 model2 input_stem2 meff r hb)
    | error e => exact Or.inr ⟨rfl, rfl⟩
  · unfold ModularAi.process_image
    cases hb : ModularAi.process_image_body operation2 model2 input_stem2 meff <;>
      rfl

/-- `adjOK` decides `List.Chain'`. -/
theorem adjOK_iff_chain' {α : Type} (P : α → α → Prop) [DecidableRel P]
    (l : List α) :
    adjOK (fun a b => decide (P a b)) l = true ↔ List.Chain' P l := by
  induction l with
  | nil => simp [adjOK]
  | cons a l ih =>
      cases l with
      | nil => simp [adjOK]
      | cons b m => simp [adjOK, List.chain'_cons, ih]

/-- The stored-state trace of a failing `main_advanced.py` task, written as
an explicit list. -/
theorem maTrace_failure (k : ℕ) :
    MainAdvanced.maTrace (MainAdvanced.MARun.failure k)
      = ({ status := "queued", progress := 0 } : NoRedis.TaskSnap) ::
        ({ status := "processing", progress := 5 } : NoRedis.TaskSnap) ::
        ((MainAdvanced.maCallbackValues.take k).map
          (fun p => ({ status := "processing", progress := p } :
            NoRedis.TaskSnap))) ++
        [{ status := "failed",
           progress := (((MainAdvanced.maCallbackValues.take k).map
             (fun p => ({ status := "processing", progress := p } :
               NoRedis.TaskSnap))).getLastD
               { status := "processing", progress := 5 }).progress }] := rfl

/-- Dropping the terminal snapshot of a two-headed concatenated trace. -/
theorem dropLast_cons_cons_concat {α : Type} (x y : α) (l : List α) (a : α) :
    (x :: y :: l ++ [a]).dropLast = x :: y :: l := by
  have h : x :: y :: l ++ [a] = (x :: y :: l) ++ [a] := rfl
  rw [h, List.dropLast_concat]

/-- C5 counterexample: a task that fails at the enhancement stage has the
stored progress sequence `0, 10, 30, 0, 0` — the `except` path of
`AdvancedAIProcessor.process_image` calls `progress_callback(0, ...)`, so
the recorded progress regresses from 30 to 0 and is not monotonically
non-decreasing over the task's lifetime. -/
theorem C5_progress_regression_counterexample :
    (NoRedis.taskTrace NoRedis.RunOutcome.failAtEnhance).map
        NoRedis.TaskSnap.progress = [0, 10, 30, 0, 0] ∧
    ¬ List.Chain' (fun a b => a ≤ b)
        ((NoRedis.taskTrace NoRedis.RunOutcome.failAtEnhance).map
          NoRedis.TaskSnap.progress) := by
  refine ⟨rfl, ?_⟩
  intro hch
  exact absurd ((adjOK_iff_chain' (fun a b => a ≤ b) _).mpr hch) (by decide)

/-- C5 amended: for every run outcome, the stored progress is non-decreasing
across every update *except* the error-path update, which resets progress to
0; on the success path the progress sequence 0,10,30,70,90,100,100 is
monotone; and the final stored state has progress exactly 100 if and only if
its status is `"completed"`. -/
theorem C5_progress_amended (o : NoRedis.RunOutcome) :
    List.Chain' (fun a b => a.progress ≤ b.progress ∨ b.progress = 0)
      (NoRedis.taskTrace o) ∧
    (NoRedis.taskTrace NoRedis.RunOutcome.success).map
        NoRedis.TaskSnap.progress = [0, 10, 30, 70, 90, 100, 100] ∧
    (((NoRedis.taskTrace o).getLastD ⟨"queued", 0⟩).status = "completed"
      ↔ ((NoRedis.taskTrace o).getLastD ⟨"queued", 0⟩).progress = 100) := by
  cases o <;> exact ⟨(adjOK_iff_chain' _ _).mp (by decide), rfl, by decide⟩

/-- The progress callbacks of `background_process_image` never change the
stored status. -/
theorem applyCallbacks_status (t0 : NoRedis.TaskSnap) (ps : List ℕ) :
    ∀ t ∈ NoRedis.applyCallbacks t0 ps, t.status = t0.status := by
  induction ps generalizing t0 with
  | nil => intro t ht; simp [NoRedis.applyCallbacks] at ht
  | cons p rest ih =>
      intro t ht
      simp only [NoRedis.applyCallbacks, List.mem_cons] at ht
      rcases ht with h | h
      · subst h; rfl
      · exact ih { t0 with progress := p } t h

/-- A list starting at rank `c`, continuing at rank `c` and ending at a rank
at least `c` is a chain for the status-rank order. -/
theorem chain_const_rank (c : ℕ) (a final : NoRedis.TaskSnap)
    (mids : List NoRedis.TaskSnap)
    (ha : MainAdvanced.statusRank a.status = c)
    (h : ∀ t ∈ mids, MainAdvanced.statusRank t.status = c)
    (hf : c ≤ MainAdvanced.statusRank final.status) :
    List.Chain'
      (fun x y => MainAdvanced.statusRank x.status
        ≤ MainAdvanced.statusRank y.status)
      (a :: mids ++ [final]) := by
  induction mids generalizing a with
  | nil =>
      exact List.chain'_cons.mpr ⟨by rw [ha]; exact hf, List.chain'_singleton _⟩
  | cons m ms ih =>
      rw [List.cons_append]
      refine List.chain'_cons.mpr ⟨?_, ?_⟩
      · rw [ha, h m (List.mem_cons_self m ms)]
      · exact ih m (h m (List.mem_cons_self m ms))
          (fun t ht => h t (List.mem_cons_of_mem m ht))

/-- C6: in both task stores, the stored status never moves backwards along
`Queued → Processing → {Completed | Failed}` (the rank of successive
snapshots is non-decreasing, so a task never regresses to `"queued"`), and a
terminal status appears only as the final snapshot — hence no update after a
terminal state changes it.  `maTrace` covers `main_advanced.py`
(terminal `"failed"`), `taskTrace` covers `main_advanced_noredis.py`
(terminal `"error"`). -/
theorem C6_terminal_states_final (r : MainAdvanced.MARun)
    (o : NoRedis.RunOutcome) :
    (List.Chain'
        (fun x y => MainAdvanced.statusRank x.status
          ≤ MainAdvanced.statusRank y.status)
        (MainAdvanced.maTrace r) ∧
      ∀ t ∈ (MainAdvanced.maTrace r).dropLast,
        t.status ≠ "completed" ∧ t.status ≠ "failed") ∧
    (List.Chain'
        (fun x y => MainAdvanced.statusRank x.status
          ≤ MainAdvanced.statusRank y.status)
        (NoRedis.taskTrace o) ∧
      ∀ t ∈ (NoRedis.taskTrace o).dropLast,
        t.status ≠ "completed" ∧ t.status ≠ "error") := by
  constructor
  · cases r with
    | success =>
        exact ⟨(adjOK_iff_chain' _ _).mp (by decide), by decide⟩
    | failure k =>
        have hmids : ∀ t ∈ (MainAdvanced.maCallbackValues.take k).map
            (fun p => ({ status := "processing", progress := p } :
              NoRedis.TaskSnap)),
            t.status = "processing" := by
          intro t ht
          obtain ⟨p, _, hp⟩ := List.mem_map.mp ht
          rw [← hp]
        constructor
        · rw [maTrace_failure k]
          refine List.chain'_cons.mpr ⟨by decide, ?_⟩
          refine chain_const_rank 1 _ _ _ rfl (fun t ht => ?_) ?_
          · simp [hmids t ht, MainAdvanced.statusRank]
          · show (1 : ℕ) ≤ MainAdvanced.statusRank "failed"
            decide
        · intro t ht
          rw [maTrace_failure k, dropLast_cons_cons_concat] at ht
          simp only [List.mem_cons] at ht
          rcases ht with h | h | h
          · subst h; exact ⟨by decide, by decide⟩
          · subst h; exact ⟨by decide, by decide⟩
          · rw [hmids t h]; exact ⟨by decide, by decide⟩
  · cases o <;>
      exact ⟨(adjOK_iff_chain' _ _).mp (by decide), by decide⟩

/-- Witness for C6 at a concrete failing run of each backend variant. -/
theorem C6_terminal_states_final_witness :
    (List.Chain'
        (fun x y => MainAdvanced.statusRank x.status
          ≤ MainAdvanced.statusRank y.status)
        (MainAdvanced.maTrace (MainAdvanced.MARun.failure 2)) ∧
      ∀ t ∈ (MainAdvanced.maTrace (MainAdvanced.MARun.failure 2)).dropLast,
        t.status ≠ "completed" ∧ t.status ≠ "failed") ∧
    (List.Chain'
        (fun x y => MainAdvanced.statusRank x.status
          ≤ MainAdvanced.statusRank y.status)
        (NoRedis.taskTrace NoRedis.RunOutcome.failAtEnhance) ∧
      ∀ t ∈ (NoRedis.taskTrace NoRedis.RunOutcome.failAtEnhance).dropLast,
        t.status ≠ "completed" ∧ t.status ≠ "error") :=
  C6_terminal_states_final (MainAdvanced.MARun.failure 2)
    NoRedis.RunOutcome.failAtEnhance

/-- C10: at the `enhance_image` submission endpoint, `validate_file` runs
before any task record is created: a file larger than 50 MB is rejected with
HTTP 413, and a file at most 50 MB whose lower-cased extension is not one of
`.jpg/.jpeg/.png/.webp/.tiff` is rejected with HTTP 400; in both cases the
task store is returned unchanged — no entry is added. -/
theorem C10_upload_validation (tasks : List (String × NoRedis.TaskSnap))
    (size : ℕ) (suffix_lower task_id : String) (saveFail : Option String) :
    (size > NoRedis.MAX_FILE_SIZE →
      NoRedis.enhance_image tasks size suffix_lower task_id saveFail
        = (.error 413, tasks)) ∧
    (size ≤ NoRedis.MAX_FILE_SIZE →
      NoRedis.SUPPORTED_FORMATS.contains suffix_lower = false →
      NoRedis.enhance_image tasks size suffix_lower task_id saveFail
        = (.error 400, tasks)) := by
  constructor
  · intro h
    simp [NoRedis.enhance_image, NoRedis.validate_file, h]
  · intro h1 h2
    have h3 : ¬ size > NoRedis.MAX_FILE_SIZE := by omega
    have h4 : suffix_lower ∉ NoRedis.SUPPORTED_FORMATS := by
      simpa using h2
    simp [NoRedis.enhance_image, NoRedis.validate_file, h3, h4]

/-- Witness for C10: a 50MB-plus-one-byte file is rejected 413, and a 1 kB
`.exe` file is rejected 400; the task store stays empty both times. -/
theorem C10_upload_validation_witness :
    (52428801 > NoRedis.MAX_FILE_SIZE ∧
      NoRedis.enhance_image [] 52428801 ".jpg" "t1" none
        = (.error 413, [])) ∧
    (1024 ≤ NoRedis.MAX_FILE_SIZE ∧
      NoRedis.SUPPORTED_FORMATS.contains ".exe" = false ∧
      NoRedis.enhance_image [] 1024 ".exe" "t2" none
        = (.error 400, [])) :=
  ⟨⟨by decide, (C10_upload_validation [] 52428801 ".jpg" "t1" none).1
      (by decide)⟩,
    ⟨by decide, rfl, (C10_upload_validation [] 1024 ".exe" "t2" none).2
      (by decide) rfl⟩⟩
